import Mathlib

/-!
Verification of the Sidetree core operation engine (sidetree-core-go excerpt).

The development shallowly embeds the Go sources:
* `pkg/docutil` hashing (`ComputeMultihash`, `GetHash`, `IsValidHash`,
  `IsSupportedMultihash`, `IsComputedUsingHashAlgorithm`, `GetMultihashCode`),
* the `restapi/helper` update-request builder (`NewUpdateRequest`,
  `validateUpdateRequest`),
* the `dochandler` payload dispatcher (`handlePayload`),
* the observer transaction processor and the `docvalidator` payload check.

Machine bytes are `Nat` values below 256; fallible Go functions returning
`(T, error)` become `Except String T`.  Dependencies whose source is not part
of the excerpt (SHA-256, the multihash wire coder, the base64url encoder, the
canonical JSON marshaller, the JWS signing helper, the observer internals) are
modelled explicitly; each such definition carries a doc comment naming what it
models.
-/

namespace Sidetree

/-- Bytes are natural numbers; a well-formed byte string has all entries below 256. -/
def isBytes (bs : List Nat) : Prop := ∀ b ∈ bs, b < 256

instance (bs : List Nat) : Decidable (isBytes bs) := by
  unfold isBytes; infer_instance

instance {ε α : Type} [DecidableEq ε] [DecidableEq α] : DecidableEq (Except ε α) := fun x y =>
  match x, y with
  | .error a, .error b =>
      if h : a = b then .isTrue (by rw [h]) else .isFalse (fun hh => h (by injection hh))
  | .ok a, .ok b =>
      if h : a = b then .isTrue (by rw [h]) else .isFalse (fun hh => h (by injection hh))
  | .error _, .ok _ => .isFalse (fun h => Except.noConfusion h)
  | .ok _, .error _ => .isFalse (fun h => Except.noConfusion h)

/-! ### SHA-256 (models Go `crypto.SHA256`, the hash behind multihash code 18) -/

/-- Reduction of a machine word modulo 2^32. -/
def w32 (n : Nat) : Nat := n % 4294967296

/-- Rotate a 32-bit word right by `n` bits. -/
def rotr (n x : Nat) : Nat := w32 ((x >>> n) ||| (x <<< (32 - n)))

/-- Lower-case sigma-0 of the SHA-256 message schedule. -/
def sig0 (x : Nat) : Nat := (rotr 7 x) ^^^ (rotr 18 x) ^^^ (x >>> 3)

/-- Lower-case sigma-1 of the SHA-256 message schedule. -/
def sig1 (x : Nat) : Nat := (rotr 17 x) ^^^ (rotr 19 x) ^^^ (x >>> 10)

/-- Upper-case sigma-0 of the SHA-256 compression function. -/
def bigSig0 (x : Nat) : Nat := (rotr 2 x) ^^^ (rotr 13 x) ^^^ (rotr 22 x)

/-- Upper-case sigma-1 of the SHA-256 compression function. -/
def bigSig1 (x : Nat) : Nat := (rotr 6 x) ^^^ (rotr 11 x) ^^^ (rotr 25 x)

/-- Round constants of SHA-256 (FIPS 180-4). -/
def shaK : List Nat :=
  [1116352408, 1899447441, 3049323471, 3921009573, 961987163,
   1508970993, 2453635748, 2870763221, 3624381080, 310598401,
   607225278, 1426881987, 1925078388, 2162078206, 2614888103,
   3248222580, 3835390401, 4022224774, 264347078, 604807628,
   770255983, 1249150122, 1555081692, 1996064986, 2554220882,
   2821834349, 2952996808, 3210313671, 3336571891, 3584528711,
   113926993, 338241895, 666307205, 773529912, 1294757372,
   1396182291, 1695183700, 1986661051, 2177026350, 2456956037,
   2730485921, 2820302411, 3259730800, 3345764771, 3516065817,
   3600352804, 4094571909, 275423344, 430227734, 506948616,
   659060556, 883997877, 958139571, 1322822218, 1537002063,
   1747873779, 1955562222, 2024104815, 2227730452, 2361852424,
   2428436474, 2756734187, 3204031479, 3329325298]

/-- State of the SHA-256 compression function: eight 32-bit words. -/
structure Hash8 where
  a : Nat
  b : Nat
  c : Nat
  d : Nat
  e : Nat
  f : Nat
  g : Nat
  h : Nat

/-- Initial hash value of SHA-256 (FIPS 180-4). -/
def shaInit : Hash8 :=
  ⟨1779033703, 3144134277, 1013904242, 2773480762,
   1359893119, 2600822924, 528734635, 1541459225⟩

/-- Extension of the 16-word message block to the 64-word schedule. -/
def extendLoop (w : List Nat) : Nat → List Nat
  | 0 => w
  | n+1 =>
    let l := w.length
    let nw := w32 (sig1 (w.getD (l - 2) 0) + w.getD (l - 7) 0 + sig0 (w.getD (l - 15) 0) + w.getD (l - 16) 0)
    extendLoop (w ++ [nw]) n

/-- One round of the SHA-256 compression function on a pair of round constant and schedule word. -/
def compressStep (s : Hash8) (kw : Nat × Nat) : Hash8 :=
  let ch := (s.e &&& s.f) ^^^ ((4294967295 - s.e) &&& s.g)
  let t1 := w32 (s.h + bigSig1 s.e + ch + kw.1 + kw.2)
  let maj := (s.a &&& s.b) ^^^ (s.a &&& s.c) ^^^ (s.b &&& s.c)
  let t2 := w32 (bigSig0 s.a + maj)
  ⟨w32 (t1 + t2), s.a, s.b, s.c, w32 (s.d + t1), s.e, s.f, s.g⟩

/-- Big-endian 32-bit words from a list of bytes. -/
def toWords : List Nat → List Nat
  | a :: b :: c :: d :: rest => (a * 16777216 + b * 65536 + c * 256 + d) :: toWords rest
  | _ => []

/-- Processing of one padded 64-byte block. -/
def processBlock (s : Hash8) (block : List Nat) : Hash8 :=
  let ws := extendLoop (toWords block) 48
  let f := (shaK.zip ws).foldl compressStep s
  ⟨w32 (s.a + f.a), w32 (s.b + f.b), w32 (s.c + f.c), w32 (s.d + f.d),
   w32 (s.e + f.e), w32 (s.f + f.f), w32 (s.g + f.g), w32 (s.h + f.h)⟩

/-- Big-endian byte serialization of a number into `k` bytes. -/
def beBytes : Nat → Nat → List Nat
  | 0, _ => []
  | k+1, n => beBytes k (n / 256) ++ [n % 256]

/-- Merkle-Damgård padding of SHA-256: 0x80, zeros to 56 mod 64, 64-bit length in bits. -/
def padMessage (msg : List Nat) : List Nat :=
  msg ++ [128] ++ List.replicate ((119 - (msg.length % 64)) % 64) 0 ++ beBytes 8 (msg.length * 8)

/-- Splitting of a byte list into 64-byte chunks (fuel-driven so it reduces in the kernel). -/
def chunk64F : Nat → List Nat → List (List Nat)
  | 0, _ => []
  | _, [] => []
  | f+1, a :: rest => ((a :: rest).take 64) :: chunk64F f (rest.drop 63)

/-- SHA-256 digest (32 bytes) of a byte string. -/
def sha256 (msg : List Nat) : List Nat :=
  let padded := padMessage msg
  let s := (chunk64F padded.length padded).foldl processBlock shaInit
  beBytes 4 s.a ++ beBytes 4 s.b ++ beBytes 4 s.c ++ beBytes 4 s.d ++
  beBytes 4 s.e ++ beBytes 4 s.f ++ beBytes 4 s.g ++ beBytes 4 s.h

/-! ### Base64url without padding

Modelled from the spec: `pkg/docutil` encoding helpers `EncodeToString` and
`DecodeString` are not part of the excerpt; the spec fixes them as URL-safe
base64 without padding (Go `base64.RawURLEncoding`, which does not check
unused trailing bits when decoding). -/

/-- Alphabet character of a 6-bit value for URL-safe base64. -/
def b64Char (v : Nat) : Char :=
  "ABCDEFGHIJKLMNOPQRSTUVWXYZabcdefghijklmnopqrstuvwxyz0123456789-_".toList.getD v 'A'

/-- Value of an alphabet character of URL-safe base64, `none` for a foreign character. -/
def b64Val (ch : Char) : Option Nat :=
  let n := ch.toNat
  if 65 ≤ n ∧ n ≤ 90 then some (n - 65)
  else if 97 ≤ n ∧ n ≤ 122 then some (n - 71)
  else if 48 ≤ n ∧ n ≤ 57 then some (n + 4)
  else if n = 45 then some 62
  else if n = 95 then some 63
  else none

/-- Six-bit groups of a byte string, in base64 chunking (3 bytes to 4 values). -/
def b64Groups : List Nat → List Nat
  | [] => []
  | [a] => [a / 4, (a % 4) * 16]
  | [a, b] => [a / 4, (a % 4) * 16 + b / 16, (b % 16) * 4]
  | a :: b :: c :: rest =>
      a / 4 :: ((a % 4) * 16 + b / 16) :: ((b % 16) * 4 + c / 64) :: (c % 64) :: b64Groups rest

/-- Reassembly of bytes from 6-bit groups; a trailing single group is malformed. -/
def b64Ungroup : List Nat → Except String (List Nat)
  | [] => .ok []
  | [_] => .error "illegal base64 data at input byte 0"
  | [v0, v1] => .ok [v0 * 4 + v1 / 16]
  | [v0, v1, v2] => .ok [v0 * 4 + v1 / 16, (v1 % 16) * 16 + v2 / 4]
  | v0 :: v1 :: v2 :: v3 :: rest => do
      let tail ← b64Ungroup rest
      .ok ((v0 * 4 + v1 / 16) :: ((v1 % 16) * 16 + v2 / 4) :: ((v2 % 4) * 64 + v3) :: tail)

/-- Modelled from the spec: `docutil.EncodeToString`, URL-safe base64 without padding. -/
def EncodeToString (bs : List Nat) : String := String.mk ((b64Groups bs).map b64Char)

/-- Mapping of characters to 6-bit values, failing on a character outside the alphabet. -/
def b64Values : List Char → Except String (List Nat)
  | [] => .ok []
  | c :: rest =>
      match b64Val c with
      | none => .error "illegal base64 data at input byte 0"
      | some v => do
          let tail ← b64Values rest
          .ok (v :: tail)

/-- Modelled from the spec: `docutil.DecodeString`, URL-safe base64 without padding. -/
def DecodeString (s : String) : Except String (List Nat) := do
  let vs ← b64Values s.data
  b64Ungroup vs

/-! ### Multihash wire format

Models the `github.com/multiformats/go-multihash` dependency used by
`pkg/docutil`: unsigned varints, `multihash.Encode`, `multihash.Decode` and
`multihash.ValidCode`. -/

/-- Unsigned varint encoding, least-significant 7-bit group first (fuel-driven). -/
def uvarintEncF : Nat → Nat → List Nat
  | 0, _ => []
  | f+1, n => if n < 128 then [n] else (n % 128 + 128) :: uvarintEncF f (n / 128)

/-- Unsigned varint encoding of a natural number. -/
def uvarintEnc (n : Nat) : List Nat := uvarintEncF (n + 1) n

/-- Unsigned varint decoding, returning the value and the remaining bytes. -/
def uvarintDec : List Nat → Except String (Nat × List Nat)
  | [] => .error "varint not minimal"
  | b :: rest =>
      if b < 128 then .ok (b, rest)
      else do
        let (m, r) ← uvarintDec rest
        .ok ((b - 128) + m * 128, r)

/-- Hash codes of the go-multihash registry (the table subset relevant here;
code 18 is sha2-256). -/
def mhKnownCodes : List Nat := [17, 18, 19, 20, 21, 22, 23, 24, 25, 86, 87]

/-- Models `multihash.ValidCode`: application-specific codes below 0x10, or a registry code. -/
def mhValidCode (code : Nat) : Bool :=
  (0 < code && code < 16) || mhKnownCodes.contains code

/-- Models `multihash.Encode`: varint code, varint digest length, digest bytes. -/
def mhEncode (digest : List Nat) (code : Nat) : Except String (List Nat) :=
  if mhValidCode code then .ok (uvarintEnc code ++ uvarintEnc digest.length ++ digest)
  else .error "unknown multihash code"

/-- Models `multihash.Decode`: code, digest length and digest of an encoded multihash. -/
def mhDecode (buf : List Nat) : Except String (Nat × Nat × List Nat) :=
  if buf.length < 2 then .error "multihash too short. must be > 3 bytes"
  else do
    let (code, r1) ← uvarintDec buf
    let (len, digest) ← uvarintDec r1
    if digest.length = len then .ok (code, len, digest)
    else .error "multihash length inconsistent"

/-! ### docutil hashing (source: `pkg/docutil/hash.go`) -/

/-- Constant `sha2_256` of `pkg/docutil`. -/
def sha2_256 : Nat := 18

/-- Embeds `docutil.GetHash`: the hash function selected by a multihash code;
only sha2-256 (code 18) is supported. -/
def GetHash (multihashCode : Nat) : Except String (List Nat → List Nat) :=
  if multihashCode = sha2_256 then .ok sha256
  else .error "algorithm not supported, unable to compute hash"

/-- Embeds `docutil.ComputeMultihash`: hash the bytes with the selected
algorithm and wrap the digest as a multihash. -/
def ComputeMultihash (multihashCode : Nat) (bytes : List Nat) : Except String (List Nat) := do
  let h ← GetHash multihashCode
  mhEncode (h bytes) multihashCode

/-- Embeds `docutil.GetMultihashCode`: the code carried by a base64url-encoded multihash. -/
def GetMultihashCode (encodedMultihash : String) : Except String Nat := do
  let multihashBytes ← DecodeString encodedMultihash
  let (code, _, _) ← mhDecode multihashBytes
  .ok code

/-- Embeds `docutil.IsSupportedMultihash`: the encoded hash decodes as a
multihash whose code is valid. -/
def IsSupportedMultihash (encodedMultihash : String) : Bool :=
  match GetMultihashCode encodedMultihash with
  | .error _ => false
  | .ok code => mhValidCode code

/-- Embeds `docutil.IsComputedUsingHashAlgorithm`: the encoded hash carries
exactly the given multihash code. -/
def IsComputedUsingHashAlgorithm (encodedMultihash : String) (code : Nat) : Bool :=
  match GetMultihashCode encodedMultihash with
  | .error _ => false
  | .ok mhCode => mhCode == code

/-- Embeds `docutil.IsValidHash`: recompute the multihash of the decoded
content with the code embedded in the supplied encoded multihash and compare
the encoded forms. -/
def IsValidHash (encodedContent encodedMultihash : String) : Except String Unit := do
  let content ← DecodeString encodedContent
  let code ← GetMultihashCode encodedMultihash
  let computedMultihash ← ComputeMultihash code content
  let encodedComputedMultihash := EncodeToString computedMultihash
  if encodedComputedMultihash ≠ encodedMultihash then
    .error "supplied hash doesn't match original content"
  else
    .ok ()

/-! ### JSON values

A minimal JSON value type; arrays and objects use their own list types so all
recursion stays mutual-structural (and therefore reduces in the kernel). -/

mutual
inductive Json where
  | str (s : String)
  | num (n : Int)
  | jbool (b : Bool)
  | null
  | arr (items : JsonArr)
  | obj (fields : JsonObj)
deriving DecidableEq
inductive JsonArr where
  | nil
  | cons (hd : Json) (tl : JsonArr)
deriving DecidableEq
inductive JsonObj where
  | nil
  | cons (key : String) (val : Json) (tl : JsonObj)
deriving DecidableEq
end

/-- Lookup of a key in a JSON object, first binding wins. -/
def JsonObj.find : JsonObj → String → Option Json
  | .nil, _ => none
  | .cons k v tl, key => if k = key then some v else tl.find key

/-- Byte-wise comparison of strings by code points (models the canonical JSON key order). -/
def strLeChars : List Char → List Char → Bool
  | [], _ => true
  | _ :: _, [] => false
  | a :: as, b :: bs =>
      if a.toNat < b.toNat then true
      else if b.toNat < a.toNat then false
      else strLeChars as bs

/-- Key order of canonical JSON. -/
def strLe (a b : String) : Bool := strLeChars a.data b.data

/-- Insertion of a field into a key-sorted object. -/
def JsonObj.insertSorted (k : String) (v : Json) : JsonObj → JsonObj
  | .nil => .cons k v .nil
  | .cons k2 v2 tl =>
      if strLe k k2 then .cons k v (.cons k2 v2 tl)
      else .cons k2 v2 (insertSorted k v tl)

/-- Sorting of an object's fields by key (insertion sort; canonical JSON order). -/
def JsonObj.sortFields : JsonObj → JsonObj
  | .nil => .nil
  | .cons k v tl => (sortFields tl).insertSorted k v

/-- Escaping of one character inside a JSON string literal. -/
def escChar (ch : Char) : List Char :=
  if ch = '"' then ['\\', '"']
  else if ch = '\\' then ['\\', '\\']
  else if ch = Char.ofNat 10 then ['\\', 'n']
  else if ch = Char.ofNat 9 then ['\\', 't']
  else if ch = Char.ofNat 13 then ['\\', 'r']
  else if ch = Char.ofNat 8 then ['\\', 'b']
  else if ch = Char.ofNat 12 then ['\\', 'f']
  else if ch.toNat < 32 then
    ['\\', 'u', '0', '0',
     "0123456789abcdef".toList.getD (ch.toNat / 16) '0',
     "0123456789abcdef".toList.getD (ch.toNat % 16) '0']
  else [ch]

/-- JSON string literal of a string, quotes included. -/
def quoteStr (s : String) : String :=
  "\"" ++ String.mk (s.data.foldr (fun c acc => escChar c ++ acc) []) ++ "\""

mutual
/-- Recursive sorting of every object's fields by key (the canonical order). -/
def sortJson : Json → Json
  | .str s => .str s
  | .num n => .num n
  | .jbool b => .jbool b
  | .null => .null
  | .arr items => .arr (sortArrVals items)
  | .obj fields => .obj ((sortObjVals fields).sortFields)
/-- Pointwise recursive sorting of array elements. -/
def sortArrVals : JsonArr → JsonArr
  | .nil => .nil
  | .cons hd tl => .cons (sortJson hd) (sortArrVals tl)
/-- Pointwise recursive sorting of object field values. -/
def sortObjVals : JsonObj → JsonObj
  | .nil => .nil
  | .cons k v tl => .cons k (sortJson v) (sortObjVals tl)
end

mutual
/-- Serialization of a JSON value with fields in the order they stand. -/
def serJson : Json → String
  | .str s => quoteStr s
  | .num n => toString n
  | .jbool b => if b then "true" else "false"
  | .null => "null"
  | .arr items => "[" ++ serArr items ++ "]"
  | .obj fields => "\x7b" ++ serObj fields ++ "\x7d"
/-- Serialization of array elements, comma separated. -/
def serArr : JsonArr → String
  | .nil => ""
  | .cons hd .nil => serJson hd
  | .cons hd (.cons h2 tl) => serJson hd ++ "," ++ serArr (.cons h2 tl)
/-- Serialization of object fields, comma separated. -/
def serObj : JsonObj → String
  | .nil => ""
  | .cons k v .nil => quoteStr k ++ ":" ++ serJson v
  | .cons k v (.cons k2 v2 tl) => quoteStr k ++ ":" ++ serJson v ++ "," ++ serObj (.cons k2 v2 tl)
end

/-- Modelled from the spec: canonical JSON serialization (JCS — object keys
sorted by code point, no insignificant whitespace, UTF-8), as produced by
`internal/canonicalizer.MarshalCanonical` whose source is not in the excerpt. -/
def marshalCanonicalJson (j : Json) : String := serJson (sortJson j)

/-! ### UTF-8 bytes of strings (Go strings are UTF-8 byte slices) -/

/-- UTF-8 encoding of one character. -/
def utf8Char (c : Char) : List Nat :=
  let n := c.toNat
  if n < 128 then [n]
  else if n < 2048 then [192 + n / 64, 128 + n % 64]
  else if n < 65536 then [224 + n / 4096, 128 + (n / 64) % 64, 128 + n % 64]
  else [240 + n / 262144, 128 + (n / 4096) % 64, 128 + (n / 64) % 64, 128 + n % 64]

/-- UTF-8 bytes of a string. -/
def strBytes (s : String) : List Nat := (s.data.map utf8Char).flatten

/-- UTF-8 decoding of a byte list into characters (`none` on malformed input). -/
def utf8Decode : List Nat → Option (List Char)
  | [] => some []
  | b :: rest =>
      if b < 128 then do
        let tail ← utf8Decode rest
        some (Char.ofNat b :: tail)
      else if 192 ≤ b ∧ b < 224 then
        match rest with
        | b2 :: rest2 =>
            if 128 ≤ b2 ∧ b2 < 192 then do
              let tail ← utf8Decode rest2
              some (Char.ofNat ((b - 192) * 64 + (b2 - 128)) :: tail)
            else none
        | _ => none
      else if 224 ≤ b ∧ b < 240 then
        match rest with
        | b2 :: b3 :: rest2 =>
            if (128 ≤ b2 ∧ b2 < 192) ∧ (128 ≤ b3 ∧ b3 < 192) then do
              let tail ← utf8Decode rest2
              some (Char.ofNat ((b - 224) * 4096 + (b2 - 128) * 64 + (b3 - 128)) :: tail)
            else none
        | _ => none
      else if 240 ≤ b ∧ b < 248 then
        match rest with
        | b2 :: b3 :: b4 :: rest2 =>
            if (128 ≤ b2 ∧ b2 < 192) ∧ (128 ≤ b3 ∧ b3 < 192) ∧ (128 ≤ b4 ∧ b4 < 192) then do
              let tail ← utf8Decode rest2
              some (Char.ofNat ((b - 240) * 262144 + (b2 - 128) * 4096 + (b3 - 128) * 64 + (b4 - 128)) :: tail)
            else none
        | _ => none
      else none

/-! ### JSON parsing (models Go `encoding/json.Unmarshal` to the extent the
excerpt exercises it: objects, arrays, strings, integers, literals) -/

/-- Whitespace test for the JSON grammar. -/
def isJsonWs (c : Char) : Bool := c = ' ' || c = Char.ofNat 9 || c = Char.ofNat 10 || c = Char.ofNat 13

/-- Dropping of leading JSON whitespace. -/
def skipWs : List Char → List Char
  | [] => []
  | c :: rest => if isJsonWs c then skipWs rest else c :: rest

/-- Parsing of the body of a JSON string literal after the opening quote:
characters and the remaining input. -/
def parseStrBody : Nat → List Char → Except String (List Char × List Char)
  | 0, _ => .error "invalid character: unterminated string"
  | _, [] => .error "invalid character: unterminated string"
  | f+1, c :: rest =>
      if c = '"' then .ok ([], rest)
      else if c = '\\' then
        match rest with
        | [] => .error "invalid character: unterminated string"
        | e :: rest2 =>
            let dec : Except String Char :=
              if e = '"' then .ok '"'
              else if e = '\\' then .ok '\\'
              else if e = '/' then .ok '/'
              else if e = 'n' then .ok (Char.ofNat 10)
              else if e = 't' then .ok (Char.ofNat 9)
              else if e = 'r' then .ok (Char.ofNat 13)
              else if e = 'b' then .ok (Char.ofNat 8)
              else if e = 'f' then .ok (Char.ofNat 12)
              else .error "invalid character in string escape"
            do
              let ch ← dec
              let (tail, rem) ← parseStrBody f rest2
              .ok (ch :: tail, rem)
      else do
        let (tail, rem) ← parseStrBody f rest
        .ok (c :: tail, rem)

/-- Parsing of a run of decimal digits. -/
def parseDigits : Nat → List Char → (Nat × Nat × List Char)
  | 0, cs => (0, 0, cs)
  | _, [] => (0, 0, [])
  | f+1, c :: rest =>
      if '0' ≤ c ∧ c ≤ '9' then
        let (count, v, rem) := parseDigits f rest
        (count + 1, (c.toNat - 48) * 10 ^ count + v, rem)
      else (0, 0, c :: rest)

mutual
/-- Parsing of one JSON value (fuel-driven recursive descent). -/
def parseValF : Nat → List Char → Except String (Json × List Char)
  | 0, _ => .error "invalid character: input too deep"
  | f+1, cs =>
      match skipWs cs with
      | [] => .error "unexpected end of JSON input"
      | c :: rest =>
          if c = '"' then do
            let (body, rem) ← parseStrBody (f+1) rest
            .ok (.str (String.mk body), rem)
          else if c = '\x7b' then parseObjF f (skipWs rest) true
          else if c = '[' then parseArrF f (skipWs rest) true
          else if c = 't' then
            match rest with
            | 'r' :: 'u' :: 'e' :: rem => .ok (.jbool true, rem)
            | _ => .error "invalid character"
          else if c = 'f' then
            match rest with
            | 'a' :: 'l' :: 's' :: 'e' :: rem => .ok (.jbool false, rem)
            | _ => .error "invalid character"
          else if c = 'n' then
            match rest with
            | 'u' :: 'l' :: 'l' :: rem => .ok (.null, rem)
            | _ => .error "invalid character"
          else if c = '-' then
            match parseDigits (f+1) rest with
            | (0, _, _) => .error "invalid character"
            | (_+1, v, rem) => .ok (.num (-(v : Int)), rem)
          else if '0' ≤ c ∧ c ≤ '9' then
            match parseDigits (f+1) (c :: rest) with
            | (0, _, _) => .error "invalid character"
            | (_+1, v, rem) => .ok (.num (v : Int), rem)
          else .error "invalid character"
/-- Parsing of the inside of a JSON object after the opening brace
(`first` marks that no field was read yet, so a closing brace is legal). -/
def parseObjF (f : Nat) (cs : List Char) (first : Bool) : Except String (Json × List Char) :=
  match f, cs with
  | 0, _ => .error "invalid character: input too deep"
  | _, [] => .error "unexpected end of JSON input"
  | f+1, c :: rest =>
      if first ∧ c = '\x7d' then .ok (.obj .nil, rest)
      else if c = '"' then do
        let (key, r1) ← parseStrBody (f+1) rest
        match skipWs r1 with
        | ':' :: r2 => do
            let (v, r3) ← parseValF f r2
            match skipWs r3 with
            | ',' :: r4 => do
                let (tl, r5) ← parseObjF f (skipWs r4) false
                match tl with
                | .obj fields => .ok (.obj (.cons (String.mk key) v fields), r5)
                | _ => .error "invalid character"
            | '\x7d' :: r4 => .ok (.obj (.cons (String.mk key) v .nil), r4)
            | _ => .error "invalid character"
        | _ => .error "invalid character"
      else .error "invalid character"
/-- Parsing of the inside of a JSON array after the opening bracket. -/
def parseArrF (f : Nat) (cs : List Char) (first : Bool) : Except String (Json × List Char) :=
  match f, cs with
  | 0, _ => .error "invalid character: input too deep"
  | _, [] => .error "unexpected end of JSON input"
  | f+1, c :: rest =>
      if first ∧ c = ']' then .ok (.arr .nil, rest)
      else do
        let (v, r1) ← parseValF f (c :: rest)
        match skipWs r1 with
        | ',' :: r2 => do
            let (tl, r3) ← parseArrF f (skipWs r2) false
            match tl with
            | .arr items => .ok (.arr (.cons v items), r3)
            | _ => .error "invalid character"
        | ']' :: r2 => .ok (.arr (.cons v .nil), r2)
        | _ => .error "invalid character"
end

/-- Parsing of a whole JSON document from bytes (UTF-8 decode, parse, require
only whitespace after the value); models `json.Unmarshal`'s acceptance of a
document. -/
def parseJson (bytes : List Nat) : Except String Json :=
  match utf8Decode bytes with
  | none => .error "invalid character: malformed utf-8"
  | some cs => do
      let (v, rem) ← parseValF (cs.length + 1) cs
      match skipWs rem with
      | [] => .ok v
      | _ => .error "invalid character after top-level value"

/-- Go `json.Unmarshal` of a string-typed struct field: absent and null give
the zero value, a string gives the string, any other shape is a type error. -/
def jsonStrField (j : Json) (key : String) : Except String String :=
  match j with
  | .obj fields =>
      match fields.find key with
      | none => .ok ""
      | some (.str s) => .ok s
      | some .null => .ok ""
      | some _ => .error "cannot unmarshal into field of type string"
  | _ => .error "cannot unmarshal into struct"

/-! ### restapi model (source: `pkg/restapi/model/request.go`) -/

/-- Constant `model.OperationTypeCreate` / `batch.OperationTypeCreate`. -/
def OperationTypeCreate : String := "create"

/-- Constant `model.OperationTypeUpdate` / `batch.OperationTypeUpdate`. -/
def OperationTypeUpdate : String := "update"

/-- Constant `batch.OperationTypeDeactivate`. -/
def OperationTypeDeactivate : String := "deactivate"

/-- Constant `batch.OperationTypeRecover`. -/
def OperationTypeRecover : String := "recover"

/-- Constant `model.OperationTypeDelete` / `batch.OperationTypeDelete` of the
dochandler excerpt's protocol era (its defining file is not in the excerpt;
the wire value is the JSON `type` string "delete"). -/
def OperationTypeDelete : String := "delete"

/-- Embeds `jws.JWK`: a public key in JWK form. -/
structure JWK where
  kty : String
  crv : String
  x : String
  y : String
deriving DecidableEq

/-- JSON form of a JWK (keys as in the struct tags). -/
def JWK.toJson (k : JWK) : Json :=
  .obj (.cons "kty" (.str k.kty) (.cons "crv" (.str k.crv) (.cons "x" (.str k.x) (.cons "y" (.str k.y) .nil))))

/-- Embeds `model.UpdateSignedDataModel`: the signed payload of an update,
struct tags `update_key` and `delta_hash`. -/
structure UpdateSignedDataModel where
  updateKey : Option JWK
  deltaHash : String
deriving DecidableEq

/-- JSON form of the update signed-data model (a nil key marshals as null). -/
def UpdateSignedDataModel.toJson (m : UpdateSignedDataModel) : Json :=
  .obj (.cons "update_key" (match m.updateKey with | none => .null | some k => k.toJson)
        (.cons "delta_hash" (.str m.deltaHash) .nil))

/-- Embeds `model.DeltaModel`: update commitment and patches, struct tags
`update_commitment,omitempty` and `patches,omitempty`. -/
structure DeltaModel where
  updateCommitment : String
  patches : JsonArr
deriving DecidableEq

/-- JSON form of the delta model, honouring `omitempty` on both fields. -/
def DeltaModel.toJson (d : DeltaModel) : Json :=
  let withPatches : JsonObj :=
    match d.patches with
    | .nil => .nil
    | ps => .cons "patches" (.arr ps) .nil
  .obj (if d.updateCommitment = "" then withPatches
        else .cons "update_commitment" (.str d.updateCommitment) withPatches)

/-- Embeds `model.UpdateRequest`: the wire form of an update request, struct
tags `type`, `did_suffix`, `signed_data`, `delta`. -/
structure UpdateRequest where
  operation : String
  didSuffix : String
  signedData : String
  delta : String
deriving DecidableEq

/-- JSON form of the update request. -/
def UpdateRequest.toJson (r : UpdateRequest) : Json :=
  .obj (.cons "type" (.str r.operation)
        (.cons "did_suffix" (.str r.didSuffix)
         (.cons "signed_data" (.str r.signedData)
          (.cons "delta" (.str r.delta) .nil))))

/-! ### Update request builder (source: `pkg/restapi/helper/update.go`) -/

/-- Modelled from the spec: the `Signer` capability of the request builder
(`helper.Signer`, not in the excerpt) — protected JWS headers plus a signing
function over bytes.  The spec's determinism invariant makes the signature a
function of the signing input. -/
structure Signer where
  headers : JsonObj
  sign : List Nat → List Nat

/-- Embeds `helper.UpdateRequestInfo`; Go nil-able fields become options. -/
structure UpdateRequestInfo where
  didSuffix : String
  patch : Option Json
  updateCommitment : String
  updateKey : Option JWK
  multihashCode : Nat
  signer : Option Signer

/-- Modelled from the spec: `helper.validateSigner` (not in the excerpt) —
the signer must be present and its protected headers must carry a non-empty
`kid`. -/
def validateSigner : Option Signer → Except String Unit
  | none => .error "missing signer"
  | some s =>
      match s.headers.find "kid" with
      | some (.str kid) =>
          if kid = "" then .error "kid must be present in the protected header" else .ok ()
      | _ => .error "kid must be present in the protected header"

/-- Embeds `helper.validateUpdateRequest`. -/
def validateUpdateRequest (info : UpdateRequestInfo) : Except String Unit :=
  if info.didSuffix = "" then .error "missing did unique suffix"
  else if info.patch = none then .error "missing update information"
  else validateSigner info.signer

/-- Modelled from the spec: `helper.getDeltaBytes` (not in the excerpt) —
canonical bytes of the delta assembled from the commitment and the patches. -/
def getDeltaBytes (commitment : String) (patches : JsonArr) : List Nat :=
  strBytes (marshalCanonicalJson (DeltaModel.toJson ⟨commitment, patches⟩))

/-- Modelled from the spec: `helper.getEncodedMultihash` (not in the excerpt)
— the base64url encoding of the multihash of the given bytes. -/
def getEncodedMultihash (code : Nat) (bytes : List Nat) : Except String String := do
  let hash ← ComputeMultihash code bytes
  .ok (EncodeToString hash)

/-- Modelled from the spec: `signutil.SignModel` (not in the excerpt) — a
compact JWS over the canonical JSON of the model: base64url(protected
headers) dot base64url(payload) dot base64url(signature). -/
def SignModel (model : Json) (signer : Signer) : String :=
  let payloadB64 := EncodeToString (strBytes (marshalCanonicalJson model))
  let protectedB64 := EncodeToString (strBytes (marshalCanonicalJson (.obj signer.headers)))
  let signingInput := protectedB64 ++ "." ++ payloadB64
  signingInput ++ "." ++ EncodeToString (signer.sign (strBytes signingInput))

/-- Embeds `helper.NewUpdateRequest`: validate, build the delta, hash it,
sign the signed-data model and emit the canonical update request. -/
def NewUpdateRequest (info : UpdateRequestInfo) : Except String String := do
  let _ ← validateUpdateRequest info
  match info.patch, info.signer with
  | some p, some signer => do
      let deltaBytes := getDeltaBytes info.updateCommitment (.cons p .nil)
      let mhDelta ← getEncodedMultihash info.multihashCode deltaBytes
      let signedDataModel : UpdateSignedDataModel := ⟨info.updateKey, mhDelta⟩
      let jwsCompact := SignModel signedDataModel.toJson signer
      let schema : UpdateRequest := ⟨OperationTypeUpdate, info.didSuffix, jwsCompact, EncodeToString deltaBytes⟩
      .ok (marshalCanonicalJson schema.toJson)
  | _, _ => .error "missing update information"

/-! ### dochandler payload dispatch (source: the `dochandler` excerpt) -/

/-- Embeds the `batch.Operation` record as the dochandler excerpt uses it
(its era carries the encoded payload and OTP hash fields). -/
structure DocOperation where
  encodedPayload : String
  type : String
  uniqueSuffix : String
  id : String
  document : Json
  patch : Json
  recoveryOtp : String
  nextUpdateOtpHash : String
  nextRecoveryOtpHash : String
deriving DecidableEq

/-- Modelled from the spec: `docutil.GetOperationHash` (not in the excerpt) —
the unique suffix as the base64url-encoded multihash (default code 18) of the
operation's decoded payload. -/
def GetOperationHash (op : DocOperation) : Except String String := do
  let decoded ← DecodeString op.encodedPayload
  let mh ← ComputeMultihash sha2_256 decoded
  .ok (EncodeToString mh)

/-- Total string value of an object's key (empty when absent or not a string). -/
def jsonStrValueD (j : Json) (key : String) : String :=
  match j with
  | .obj fields =>
      match fields.find key with
      | some (.str s) => s
      | _ => ""
  | _ => ""

/-- Value of an object's key, `null` when absent. -/
def jsonAnyField (j : Json) (key : String) : Json :=
  match j with
  | .obj fields =>
      match fields.find key with
      | some v => v
      | none => .null
  | _ => .null

/-- Unmarshalling of a nested struct field: absent or null is the zero
struct, an object is itself, anything else is a type error. -/
def jsonSubObj (j : Json) (key : String) : Except String Json :=
  match j with
  | .obj fields =>
      match fields.find key with
      | none => .ok (.obj .nil)
      | some (.obj o) => .ok (.obj o)
      | some .null => .ok (.obj .nil)
      | some _ => .error "cannot unmarshal into struct field"
  | _ => .error "cannot unmarshal into struct"

/-- Embeds `dochandler.getUpdatePayloadSchema` (the schema struct of its era
is not in the excerpt; fields are the DID suffix, the patch and the next
update OTP hash). -/
def getUpdatePayloadSchema (payload : List Nat) : Except String (String × Json × String) := do
  let j ← parseJson payload
  let didUniqueSuffix ← jsonStrField j "didUniqueSuffix"
  let nextUpdateOtpHash ← jsonStrField j "nextUpdateOtpHash"
  .ok (didUniqueSuffix, jsonAnyField j "patch", nextUpdateOtpHash)

/-- Embeds `dochandler.getCreatePayloadSchema` (schema struct modelled:
operation data with document and next update OTP hash, suffix data with next
recovery OTP hash). -/
def getCreatePayloadSchema (payload : List Nat) : Except String (Json × String × String) := do
  let j ← parseJson payload
  let opData ← jsonSubObj j "operationData"
  let nextUpdateOtpHash ← jsonStrField opData "nextUpdateOtpHash"
  let suffixData ← jsonSubObj j "suffixData"
  let nextRecoveryOtpHash ← jsonStrField suffixData "nextRecoveryOtpHash"
  .ok (jsonAnyField opData "document", nextUpdateOtpHash, nextRecoveryOtpHash)

/-- Embeds `dochandler.getDeletePayloadSchema` (schema struct modelled: the
DID suffix and the recovery OTP). -/
def getDeletePayloadSchema (payload : List Nat) : Except String (String × String) := do
  let j ← parseJson payload
  let didUniqueSuffix ← jsonStrField j "didUniqueSuffix"
  let recoveryOtp ← jsonStrField j "recoveryOtp"
  .ok (didUniqueSuffix, recoveryOtp)

/-- Embeds `dochandler.getOperationType`: map the payload's `type` string to
the batch operation type, empty for anything unrecognised. -/
def getOperationType (t : String) : String :=
  if t = OperationTypeCreate then OperationTypeCreate
  else if t = OperationTypeUpdate then OperationTypeUpdate
  else if t = OperationTypeDelete then OperationTypeDelete
  else ""

/-- Embeds `dochandler.getDecodedPayload`: base64url-decode the payload and
peek the `type` field. -/
def getDecodedPayload (encodedPayload : String) : Except String (List Nat × String) := do
  let decodedPayload ← DecodeString encodedPayload
  let j ← parseJson decodedPayload
  let t ← jsonStrField j "type"
  .ok (decodedPayload, getOperationType t)

/-- Body of `handlePayload` after the payload decode: the `switch` over the
operation type (already stored in `op0`), then the namespaced id stamping. -/
def dispatchPayload (ns : String) (op0 : DocOperation) (decodedPayload : List Nat) :
    Except String DocOperation := do
  let op1 ←
    if op0.type = OperationTypeCreate then do
      let uniqueSuffix ← GetOperationHash op0
      match getCreatePayloadSchema decodedPayload with
      | .error _ => Except.error "request payload doesn't follow the expected create payload schema"
      | .ok (document, nextUpdateOtpHash, nextRecoveryOtpHash) =>
          Except.ok { op0 with uniqueSuffix := uniqueSuffix, document := document,
                               nextUpdateOtpHash := nextUpdateOtpHash,
                               nextRecoveryOtpHash := nextRecoveryOtpHash }
    else if op0.type = OperationTypeUpdate then
      match getUpdatePayloadSchema decodedPayload with
      | .error _ => Except.error "request payload doesn't follow the expected update payload schema"
      | .ok (didUniqueSuffix, patch, nextUpdateOtpHash) =>
          Except.ok { op0 with uniqueSuffix := didUniqueSuffix, patch := patch,
                               nextUpdateOtpHash := nextUpdateOtpHash }
    else if op0.type = OperationTypeDelete then
      match getDeletePayloadSchema decodedPayload with
      | .error _ => Except.error "request payload doesn't follow the expected delete payload schema"
      | .ok (didUniqueSuffix, recoveryOtp) =>
          Except.ok { op0 with uniqueSuffix := didUniqueSuffix, recoveryOtp := recoveryOtp }
    else
      Except.error ("operation type [" ++ op0.type ++ "] not implemented")
  .ok { op1 with id := ns ++ ":" ++ op1.uniqueSuffix }

/-- Embeds `dochandler.(*UpdateHandler).handlePayload`: decode, store the
peeked type on the operation, dispatch on it and stamp the namespaced id. -/
def handlePayload (ns : String) (operation : DocOperation) : Except String DocOperation := do
  let (decodedPayload, operationType) ← getDecodedPayload operation.encodedPayload
  dispatchPayload ns { operation with type := operationType } decodedPayload

/-! ### Observer and transaction processor (modelled from the spec: the
`observer` package source is not in the excerpt, only its tests are) -/

/-- Embeds `batch.AnchoredOperation` (source: `pkg/api/batch/operation.go`). -/
structure AnchoredOperation where
  type : String
  uniqueSuffix : String
  signedData : String
  encodedDelta : String
  encodedSuffixData : String
  transactionTime : Nat
  transactionNumber : Nat
  operationIndex : Nat
deriving DecidableEq

/-- Embeds `txn.SidetreeTxn` as the spec's external-interface section fixes it. -/
structure SidetreeTxn where
  txnNamespace : String
  transactionTime : Nat
  transactionNumber : Nat
  anchorString : String
deriving DecidableEq

/-- Modelled from the spec: `observer.updateAnchoredOperation` — stamp the
ledger position onto an operation (behaviour pinned by `TestUpdateOperation`). -/
def updateAnchoredOperation (op : AnchoredOperation) (index : Nat) (sidetreeTxn : SidetreeTxn) :
    AnchoredOperation :=
  { op with transactionTime := sidetreeTxn.transactionTime,
            transactionNumber := sidetreeTxn.transactionNumber,
            operationIndex := index }

/-- First-occurrence filter on unique suffixes (the loop body of the
transaction processor's deduplication). -/
def keepFirst (seen : List String) : List AnchoredOperation → List AnchoredOperation
  | [] => []
  | op :: rest =>
      if op.uniqueSuffix ∈ seen then keepFirst seen rest
      else op :: keepFirst (op.uniqueSuffix :: seen) rest

/-- First operation of a list carrying the given unique suffix. -/
def findBySuffix (s : String) : List AnchoredOperation → Option AnchoredOperation
  | [] => none
  | op :: rest => if op.uniqueSuffix = s then some op else findBySuffix s rest

/-- Operation store capability: a single `Put` of a batch of anchored operations. -/
structure OperationStore where
  put : List AnchoredOperation → Except String Unit

/-- Modelled from the spec: `observer.(*TxnProcessor).processTxnOperations` —
deduplicate by unique suffix keeping the first occurrence, stamp the ledger
position and a running index, obtain the namespace's store and put the batch;
the successful result carries the list handed to `Put` (its single call). -/
def processTxnOperations (forNamespace : String → Except String OperationStore)
    (txnOps : List AnchoredOperation) (sidetreeTxn : SidetreeTxn) :
    Except String (List AnchoredOperation) := do
  let ops := (keepFirst [] txnOps).enum.map (fun p => updateAnchoredOperation p.2 p.1 sidetreeTxn)
  let opStore ← forNamespace sidetreeTxn.txnNamespace
  match opStore.put ops with
  | .error e =>
      .error ("failed to store operation from anchor string"
        ++ (" [" ++ (sidetreeTxn.anchorString ++ ("]: " ++ e))))
  | .ok _ => .ok ops

/-- Modelled from the spec: `observer.(*TxnProcessor).Process` — fetch the
transaction's operations and process them; a provider error aborts the whole
transaction with one aggregate error and nothing reaches the store. -/
def Process (txnOpsProvider : SidetreeTxn → Except String (List AnchoredOperation))
    (forNamespace : String → Except String OperationStore) (sidetreeTxn : SidetreeTxn) :
    Except String (List AnchoredOperation) :=
  match txnOpsProvider sidetreeTxn with
  | .error e =>
      .error ("failed to retrieve operations for anchor string"
        ++ (" [" ++ (sidetreeTxn.anchorString ++ ("]: " ++ e))))
  | .ok txnOps => processTxnOperations forNamespace txnOps sidetreeTxn

/-- Modelled from the spec: the observer consumer loop — every ledger message
is processed in order; a failed transaction is logged and skipped, never
stopping the loop. -/
def observerRun (txnOpsProvider : SidetreeTxn → Except String (List AnchoredOperation))
    (forNamespace : String → Except String OperationStore) (txns : List SidetreeTxn) :
    List (Except String (List AnchoredOperation)) :=
  txns.map (Process txnOpsProvider forNamespace)

/-! ### docvalidator (modelled from the spec and its tests: the
`docvalidator` package source is not in the excerpt) -/

/-- Modelled from the spec: `mocks.MockOperationStore` — an injectable error,
otherwise lookup of the anchored operations of a suffix, with an error when
none are held. -/
structure MockOperationStore where
  err : Option String
  ops : List AnchoredOperation

/-- Lookup in the mock operation store. -/
def MockOperationStore.get (m : MockOperationStore) (suffix : String) :
    Except String (List AnchoredOperation) :=
  match m.err with
  | some e => .error e
  | none =>
      if (m.ops.filter (fun op => op.uniqueSuffix == suffix)).isEmpty
      then .error "uniqueSuffix not found in the store"
      else .ok (m.ops.filter (fun op => op.uniqueSuffix == suffix))

/-- Modelled from the spec: `docvalidator.(*Validator).IsValidPayload` — the
payload must be a JSON document carrying a non-empty `did_suffix`, and the
store must hold anchored operations for that suffix. -/
def IsValidPayload (store : MockOperationStore) (payload : List Nat) : Except String Unit := do
  let doc ← parseJson payload
  match doc with
  | .obj _ =>
      let didSuffix := jsonStrValueD doc "did_suffix"
      if didSuffix = "" then .error "missing unique suffix"
      else do
        let _ ← store.get didSuffix
        .ok ()
  | _ => .error "invalid character: document is not an object"

/-- Substring containment, used to state "error containing ...". -/
def strContains (s pat : String) : Prop := ∃ pre post, s = pre ++ pat ++ post

/-! ### Concrete inputs of the end-to-end scenarios (used by witnesses) -/

/-- Patch of scenario S1: replace /name with "Jane". -/
def s1Patch : Json :=
  .obj (.cons "op" (.str "replace") (.cons "path" (.str "/name") (.cons "value" (.str "Jane") .nil)))

/-- Signer of scenario S1: protected headers alg ES256 and kid "key-1"; the
deterministic signing function is a parameter of the model. -/
def s1Signer : Signer :=
  ⟨.cons "alg" (.str "ES256") (.cons "kid" (.str "key-1") .nil), fun bs => sha256 bs⟩

/-- Update key of scenario S1. -/
def s1Key : JWK := ⟨"EC", "P-256", "xval", "yval"⟩

/-- Request info of scenario S1. -/
def s1Info : UpdateRequestInfo :=
  ⟨"whatever", some s1Patch, "c0mmitment", some s1Key, 18, some s1Signer⟩

/-- Document operation whose encoded payload is a recover request (type
field "recover"), everything else empty. -/
def c8RecoverOp : DocOperation :=
  ⟨EncodeToString (strBytes "\x7b\"type\":\"recover\"\x7d"), "", "", "", .null, .null, "", "", ""⟩

/-- Document operation whose encoded payload is an update request for the
suffix "abc". -/
def c8UpdateOp : DocOperation :=
  ⟨EncodeToString (strBytes "\x7b\"type\":\"update\",\"didUniqueSuffix\":\"abc\"\x7d"),
   "", "", "", .null, .null, "", "", ""⟩

/-- Anchored operation of scenarios S3 to S5: unique suffix "abc". -/
def s4Op : AnchoredOperation := ⟨"", "abc", "", "", "", 0, 0, 0⟩

/-- Operation store of the observer scenarios: every put succeeds. -/
def s4Store : OperationStore := ⟨fun _ => .ok ()⟩

/-- Ledger transaction of the observer scenarios. -/
def s4Txn : SidetreeTxn := ⟨"did:sidetree", 20, 2, "1.address"⟩

/-! ### Supporting lemmas and claim theorems -/

theorem beBytes_length (k n : Nat) : (beBytes k n).length = k := by
  induction k generalizing n with
  | zero => rfl
  | succ k ih => simp [beBytes, ih]

theorem beBytes_bytes (k n : Nat) : isBytes (beBytes k n) := by
  induction k generalizing n with
  | zero => intro b hb; simp [beBytes] at hb
  | succ k ih =>
    intro b hb
    simp only [beBytes, List.mem_append, List.mem_singleton] at hb
    rcases hb with hb | hb
    · exact ih _ b hb
    · subst hb; exact Nat.mod_lt _ (by norm_num)

theorem sha256_length (msg : List Nat) : (sha256 msg).length = 32 := by
  unfold sha256
  simp [List.length_append, beBytes_length]

theorem sha256_bytes (msg : List Nat) : isBytes (sha256 msg) := by
  unfold sha256
  intro b hb
  simp only [List.mem_append] at hb
  rcases hb with ((((((h | h) | h) | h) | h) | h) | h) | h <;> exact beBytes_bytes 4 _ b h

theorem b64Val_b64Char (v : Nat) (h : v < 64) : b64Val (b64Char v) = some v := by
  interval_cases v <;> rfl

theorem b64Groups_lt (bs : List Nat) (h : isBytes bs) : ∀ v ∈ b64Groups bs, v < 64 := by
  induction bs using b64Groups.induct with
  | case1 => intro v hv; simp [b64Groups] at hv
  | case2 a =>
    have ha : a < 256 := h a (by simp)
    intro v hv
    simp only [b64Groups, List.mem_cons, List.not_mem_nil, or_false] at hv
    rcases hv with hv | hv <;> omega
  | case3 a b =>
    have ha : a < 256 := h a (by simp)
    have hb : b < 256 := h b (by simp)
    intro v hv
    simp only [b64Groups, List.mem_cons, List.not_mem_nil, or_false] at hv
    rcases hv with hv | hv | hv <;> omega
  | case4 a b c rest ih =>
    have ha : a < 256 := h a (by simp)
    have hb : b < 256 := h b (by simp)
    have hc : c < 256 := h c (by simp)
    have hrest : isBytes rest := fun x hx => h x (by simp [hx])
    intro v hv
    simp only [b64Groups, List.mem_cons] at hv
    rcases hv with hv | hv | hv | hv | hv
    · omega
    · omega
    · omega
    · omega
    · exact ih hrest v hv

theorem bindOk {α β : Type} (a : α) (f : α → Except String β) :
    (Except.ok a >>= f : Except String β) = f a := rfl

theorem b64Ungroup_b64Groups (bs : List Nat) (h : isBytes bs) :
    b64Ungroup (b64Groups bs) = .ok bs := by
  induction bs using b64Groups.induct with
  | case1 => rfl
  | case2 a =>
    have ha : a < 256 := h a (by simp)
    simp only [b64Groups, b64Ungroup, Except.ok.injEq, List.cons.injEq, and_true]
    omega
  | case3 a b =>
    have ha : a < 256 := h a (by simp)
    have hb : b < 256 := h b (by simp)
    simp only [b64Groups, b64Ungroup, Except.ok.injEq, List.cons.injEq, and_true]
    constructor
    · omega
    · omega
  | case4 a b c rest ih =>
    have ha : a < 256 := h a (by simp)
    have hb : b < 256 := h b (by simp)
    have hc : c < 256 := h c (by simp)
    have hrest : isBytes rest := fun x hx => h x (by simp [hx])
    simp only [b64Groups, b64Ungroup, ih hrest, bindOk, Except.ok.injEq, List.cons.injEq, and_true]
    refine ⟨by omega, by omega, by omega⟩

theorem b64Values_map_b64Char (vs : List Nat) (h : ∀ v ∈ vs, v < 64) :
    b64Values (vs.map b64Char) = .ok vs := by
  induction vs with
  | nil => rfl
  | cons v rest ih =>
    have hv : v < 64 := h v (by simp)
    have hrest : ∀ x ∈ rest, x < 64 := fun x hx => h x (by simp [hx])
    simp only [List.map_cons, b64Values, b64Val_b64Char v hv, ih hrest, bindOk]

/-- Round trip of the base64url codec on well-formed byte strings. -/
theorem decode_encode (bs : List Nat) (h : isBytes bs) :
    DecodeString (EncodeToString bs) = .ok bs := by
  unfold DecodeString EncodeToString
  simp only [String.data]
  rw [b64Values_map_b64Char _ (b64Groups_lt bs h)]
  simpa using b64Ungroup_b64Groups bs h

theorem ComputeMultihash_18 (bytes : List Nat) :
    ComputeMultihash 18 bytes = .ok (18 :: 32 :: sha256 bytes) := by
  have h : ComputeMultihash 18 bytes
      = .ok (18 :: (uvarintEnc (sha256 bytes).length ++ sha256 bytes)) := rfl
  rw [h, sha256_length]
  rfl

theorem ComputeMultihash_18_bytes (bytes : List Nat) :
    isBytes (18 :: 32 :: sha256 bytes) := by
  intro b hb
  simp only [List.mem_cons] at hb
  rcases hb with hb | hb | hb
  · omega
  · omega
  · exact sha256_bytes bytes b hb

theorem mhDecode_18 (bytes : List Nat) :
    mhDecode (18 :: 32 :: sha256 bytes) = .ok (18, 32, sha256 bytes) := by
  have h : mhDecode (18 :: 32 :: sha256 bytes)
      = if (sha256 bytes).length = 32 then .ok (18, 32, sha256 bytes)
        else .error "multihash length inconsistent" := rfl
  rw [h, if_pos (sha256_length bytes)]

theorem GetMultihashCode_encode_18 (bytes : List Nat) :
    GetMultihashCode (EncodeToString (18 :: 32 :: sha256 bytes)) = .ok 18 := by
  unfold GetMultihashCode
  rw [decode_encode _ (ComputeMultihash_18_bytes bytes), bindOk, mhDecode_18, bindOk]

theorem bindErr {α β : Type} (e : String) (f : α → Except String β) :
    (Except.error e >>= f : Except String β) = .error e := rfl

theorem GetMultihashCode_of (s : String) (bs : List Nat) (code len : Nat) (dig : List Nat)
    (h1 : DecodeString s = .ok bs) (h2 : mhDecode bs = .ok (code, len, dig)) :
    GetMultihashCode s = .ok code := by
  unfold GetMultihashCode
  rw [h1, bindOk, h2, bindOk]

theorem IsValidHash_roundtrip (content : List Nat) (hc : isBytes content) :
    IsValidHash (EncodeToString content) (EncodeToString (18 :: 32 :: sha256 content)) = .ok () := by
  unfold IsValidHash
  rw [decode_encode content hc, bindOk, GetMultihashCode_encode_18, bindOk,
      ComputeMultihash_18, bindOk]
  rw [if_neg (fun hne => hne rfl)]

theorem char_toNat_lt (c : Char) : c.toNat < 1114112 := by
  rcases c.valid with h | ⟨_, h2⟩
  · exact Nat.lt_trans h (by norm_num)
  · exact h2

theorem utf8Char_bytes (c : Char) : ∀ b ∈ utf8Char c, b < 256 := by
  have hn := char_toNat_lt c
  intro b hb
  unfold utf8Char at hb
  by_cases h1 : c.toNat < 128
  · rw [if_pos h1] at hb
    simp only [List.mem_singleton] at hb
    omega
  · rw [if_neg h1] at hb
    by_cases h2 : c.toNat < 2048
    · rw [if_pos h2] at hb
      simp only [List.mem_cons, List.not_mem_nil, or_false] at hb
      rcases hb with rfl | rfl <;> omega
    · rw [if_neg h2] at hb
      by_cases h3 : c.toNat < 65536
      · rw [if_pos h3] at hb
        simp only [List.mem_cons, List.not_mem_nil, or_false] at hb
        rcases hb with rfl | rfl | rfl <;> omega
      · rw [if_neg h3] at hb
        simp only [List.mem_cons, List.not_mem_nil, or_false] at hb
        rcases hb with rfl | rfl | rfl | rfl <;> omega

theorem strBytes_isBytes (s : String) : isBytes (strBytes s) := by
  intro b hb
  unfold strBytes at hb
  rw [List.mem_flatten] at hb
  obtain ⟨l, hl, hbl⟩ := hb
  rw [List.mem_map] at hl
  obtain ⟨c, _, rfl⟩ := hl
  exact utf8Char_bytes c b hbl

theorem getEncodedMultihash_18 (bytes : List Nat) :
    getEncodedMultihash 18 bytes = .ok (EncodeToString (18 :: 32 :: sha256 bytes)) := by
  unfold getEncodedMultihash
  rw [ComputeMultihash_18, bindOk]

theorem validateSigner_kid (s : Signer) (kid : String)
    (h5 : s.headers.find "kid" = some (.str kid)) (h6 : kid ≠ "") :
    validateSigner (some s) = .ok () := by
  simp only [validateSigner]
  rw [h5]
  show (if kid = "" then Except.error "kid must be present in the protected header"
        else Except.ok ()) = Except.ok ()
  rw [if_neg h6]

theorem validateSigner_noKid (s : Signer)
    (hkid : ∀ kid, s.headers.find "kid" = some (.str kid) → kid = "") :
    validateSigner (some s) = .error "kid must be present in the protected header" := by
  simp only [validateSigner]
  cases hfind : s.headers.find "kid" with
  | none => rfl
  | some v =>
      cases v with
      | str kid =>
          show (if kid = "" then Except.error "kid must be present in the protected header"
                else Except.ok ()) = Except.error "kid must be present in the protected header"
          rw [if_pos (hkid kid hfind)]
      | num n => rfl
      | jbool b => rfl
      | null => rfl
      | arr items => rfl
      | obj fields => rfl

/-- C7: `GetHash` and `ComputeMultihash` succeed only for multihash code 18
(SHA-256); every other code yields no result and an error containing
"algorithm not supported". -/
theorem claim_C7 (code : Nat) (bytes : List Nat) (h : code ≠ 18) :
    GetHash code = .error "algorithm not supported, unable to compute hash" ∧
    ComputeMultihash code bytes = .error "algorithm not supported, unable to compute hash" ∧
    strContains "algorithm not supported, unable to compute hash" "algorithm not supported" := by
  have hg : GetHash code = .error "algorithm not supported, unable to compute hash" := by
    unfold GetHash sha2_256
    rw [if_neg h]
  refine ⟨hg, ?_, "", ", unable to compute hash", by decide⟩
  unfold ComputeMultihash
  rw [hg, bindErr]

/-- Witness for C7 at codes 100 and 0. -/
theorem claim_C7_witness :
    GetHash 100 = .error "algorithm not supported, unable to compute hash" ∧
    ComputeMultihash 100 (strBytes "test") = .error "algorithm not supported, unable to compute hash" ∧
    GetHash 0 = .error "algorithm not supported, unable to compute hash" :=
  ⟨(claim_C7 100 (strBytes "test") (by decide)).1,
   (claim_C7 100 (strBytes "test") (by decide)).2.1,
   (claim_C7 0 [] (by decide)).1⟩

/-- C3: verifying an encoded multihash against the very content it was
computed from succeeds, and whenever the recomputed encoded multihash (using
the code embedded in the supplied one) differs from the supplied encoded
multihash, `IsValidHash` fails with "supplied hash doesn't match original
content". -/
theorem claim_C3 (content : List Nat) (hc : isBytes content) :
    IsValidHash (EncodeToString content) (EncodeToString (18 :: 32 :: sha256 content)) = .ok () ∧
    (∀ encodedMultihash mhBytes code len dig computed,
      DecodeString encodedMultihash = .ok mhBytes →
      mhDecode mhBytes = .ok (code, len, dig) →
      ComputeMultihash code content = .ok computed →
      EncodeToString computed ≠ encodedMultihash →
      IsValidHash (EncodeToString content) encodedMultihash
        = .error "supplied hash doesn't match original content") := by
  constructor
  · exact IsValidHash_roundtrip content hc
  · intro em mhBytes code len dig computed h1 h2 h3 h4
    unfold IsValidHash
    rw [decode_encode content hc, bindOk, GetMultihashCode_of em mhBytes code len dig h1 h2,
        bindOk, h3, bindOk, if_pos h4]

set_option maxRecDepth 100000 in
/-- Witness for C3: the round trip on the content "test" and the mismatch for
the content "content" against the multihash of "test". -/
theorem claim_C3_witness :
    IsValidHash (EncodeToString (strBytes "test"))
      (EncodeToString (18 :: 32 :: sha256 (strBytes "test"))) = .ok () ∧
    IsValidHash (EncodeToString (strBytes "content"))
      (EncodeToString (18 :: 32 :: sha256 (strBytes "test")))
        = .error "supplied hash doesn't match original content" :=
  ⟨(claim_C3 (strBytes "test") (by decide)).1,
   (claim_C3 (strBytes "content") (by decide)).2
     (EncodeToString (18 :: 32 :: sha256 (strBytes "test")))
     (18 :: 32 :: sha256 (strBytes "test")) 18 32 (sha256 (strBytes "test"))
     (18 :: 32 :: sha256 (strBytes "content"))
     (decode_encode _ (ComputeMultihash_18_bytes (strBytes "test")))
     (mhDecode_18 (strBytes "test"))
     (ComputeMultihash_18 (strBytes "content"))
     (by decide)⟩

/-- C10: `IsSupportedMultihash` and `IsComputedUsingHashAlgorithm` return
false (rather than failing) on strings that are not base64 or whose bytes are
not a well-formed multihash; on the encoding of a `ComputeMultihash 18`
result the former is true and the latter is true exactly for code 18. -/
theorem claim_C10 :
    (∀ s e, DecodeString s = .error e →
        IsSupportedMultihash s = false ∧
        ∀ code, IsComputedUsingHashAlgorithm s code = false) ∧
    (∀ s bs e, DecodeString s = .ok bs → mhDecode bs = .error e →
        IsSupportedMultihash s = false ∧
        ∀ code, IsComputedUsingHashAlgorithm s code = false) ∧
    (∀ bytes, isBytes bytes →
        IsSupportedMultihash (EncodeToString (18 :: 32 :: sha256 bytes)) = true ∧
        ∀ code, (IsComputedUsingHashAlgorithm (EncodeToString (18 :: 32 :: sha256 bytes)) code
          = true ↔ code = 18)) := by
  refine ⟨?_, ?_, ?_⟩
  · intro s e h
    have hc : GetMultihashCode s = .error e := by
      unfold GetMultihashCode
      rw [h, bindErr]
    constructor
    · unfold IsSupportedMultihash
      rw [hc]
    · intro code
      unfold IsComputedUsingHashAlgorithm
      rw [hc]
  · intro s bs e h1 h2
    have hc : GetMultihashCode s = .error e := by
      unfold GetMultihashCode
      rw [h1, bindOk, h2, bindErr]
    constructor
    · unfold IsSupportedMultihash
      rw [hc]
    · intro code
      unfold IsComputedUsingHashAlgorithm
      rw [hc]
  · intro bytes _
    have hc := GetMultihashCode_encode_18 bytes
    constructor
    · unfold IsSupportedMultihash
      rw [hc]
      decide
    · intro code
      unfold IsComputedUsingHashAlgorithm
      rw [hc]
      show ((18 : Nat) == code) = true ↔ code = 18
      rw [beq_iff_eq]
      exact eq_comm

set_option maxRecDepth 100000 in
/-- Witness for C10: a corrupted base64 string, base64 of a non-multihash,
and the encoding of the multihash of "test". -/
theorem claim_C10_witness :
    IsSupportedMultihash "XXXXXaGVsbG8=" = false ∧
    IsSupportedMultihash (EncodeToString (strBytes "test")) = false ∧
    IsSupportedMultihash (EncodeToString (18 :: 32 :: sha256 (strBytes "test"))) = true ∧
    IsComputedUsingHashAlgorithm (EncodeToString (18 :: 32 :: sha256 (strBytes "test"))) 18 = true ∧
    IsComputedUsingHashAlgorithm (EncodeToString (18 :: 32 :: sha256 (strBytes "test"))) 55 = false := by
  have p1 := claim_C10.1 "XXXXXaGVsbG8=" "illegal base64 data at input byte 0" (by decide)
  have p2 := claim_C10.2.1 (EncodeToString (strBytes "test")) (strBytes "test")
    "multihash length inconsistent" (by decide) (by decide)
  have p3 := claim_C10.2.2 (strBytes "test") (by decide)
  refine ⟨p1.1, p2.1, p3.1, (p3.2 18).mpr rfl, ?_⟩
  have h55 := p3.2 55
  exact Bool.eq_false_iff.mpr (fun hx => absurd (h55.mp hx) (by decide))

/-- C5: the update request builder is deterministic — for one and the same
`UpdateRequestInfo` (did suffix, patch, commitment, key, multihash code and
signer), two invocations of `NewUpdateRequest` produce identical output. -/
theorem claim_C5 (info : UpdateRequestInfo) :
    NewUpdateRequest info = NewUpdateRequest info := rfl

/-- C6: `NewUpdateRequest` rejects invalid inputs before signing with the
specific error and no partial output (the error carries no request bytes):
empty did suffix, then missing patch, then a signer without a non-empty kid. -/
theorem claim_C6 (info : UpdateRequestInfo) :
    (info.didSuffix = "" → NewUpdateRequest info = .error "missing did unique suffix") ∧
    (info.didSuffix ≠ "" → info.patch = none →
       NewUpdateRequest info = .error "missing update information") ∧
    (info.didSuffix ≠ "" → info.patch ≠ none →
       ∀ s, info.signer = some s →
         (∀ kid, s.headers.find "kid" = some (.str kid) → kid = "") →
         NewUpdateRequest info = .error "kid must be present in the protected header") := by
  have step : ∀ e, validateUpdateRequest info = .error e → NewUpdateRequest info = .error e := by
    intro e he
    unfold NewUpdateRequest
    rw [he, bindErr]
  refine ⟨?_, ?_, ?_⟩
  · intro h1
    apply step
    unfold validateUpdateRequest
    rw [if_pos h1]
  · intro h1 h2
    apply step
    unfold validateUpdateRequest
    rw [if_neg h1, if_pos h2]
  · intro h1 h2 s hs hkid
    apply step
    unfold validateUpdateRequest
    rw [if_neg h1, if_neg h2, hs]
    exact validateSigner_noKid s hkid

/-- Witness for C6 at the three concrete invalid inputs of the tests. -/
theorem claim_C6_witness :
    NewUpdateRequest ⟨"", none, "", none, 18, none⟩ = .error "missing did unique suffix" ∧
    NewUpdateRequest ⟨"whatever", none, "", none, 18, none⟩
      = .error "missing update information" ∧
    NewUpdateRequest ⟨"whatever", some .null, "", none, 18, some ⟨.nil, fun _ => []⟩⟩
      = .error "kid must be present in the protected header" :=
  ⟨(claim_C6 _).1 rfl,
   (claim_C6 _).2.1 (by decide) rfl,
   (claim_C6 _).2.2 (by decide) (fun h => Option.noConfusion h) ⟨.nil, fun _ => []⟩ rfl
     (fun _ h => Option.noConfusion h)⟩

/-- C1: for a well-formed `UpdateRequestInfo` (non-empty did suffix, a patch,
multihash code 18, signer with a non-empty kid), `NewUpdateRequest` succeeds
and returns the canonical JSON of the update request whose fields are exactly
type="update", the did suffix, the compact JWS over the signed-data model
(update key and delta hash) and the base64url delta; the delta hash is the
encoded multihash of the delta bytes, so decoding the delta and re-hashing
verifies against it. -/
theorem claim_C1 (info : UpdateRequestInfo) (p : Json) (s : Signer) (kid : String)
    (h1 : info.didSuffix ≠ "") (h2 : info.patch = some p) (h3 : info.multihashCode = 18)
    (h4 : info.signer = some s) (h5 : s.headers.find "kid" = some (.str kid)) (h6 : kid ≠ "") :
    ∃ deltaBytes deltaHash jws,
      deltaBytes = getDeltaBytes info.updateCommitment (.cons p .nil) ∧
      deltaHash = EncodeToString (18 :: 32 :: sha256 deltaBytes) ∧
      getEncodedMultihash 18 deltaBytes = .ok deltaHash ∧
      jws = SignModel (UpdateSignedDataModel.toJson ⟨info.updateKey, deltaHash⟩) s ∧
      NewUpdateRequest info
        = .ok (marshalCanonicalJson (UpdateRequest.toJson
            ⟨OperationTypeUpdate, info.didSuffix, jws, EncodeToString deltaBytes⟩)) ∧
      (∃ prot sig, jws = prot ++ "." ++
          EncodeToString (strBytes (marshalCanonicalJson
            (UpdateSignedDataModel.toJson ⟨info.updateKey, deltaHash⟩))) ++ "." ++ sig) ∧
      IsValidHash (EncodeToString deltaBytes) deltaHash = .ok () := by
  refine ⟨getDeltaBytes info.updateCommitment (.cons p .nil), _, _, rfl, rfl,
    getEncodedMultihash_18 _, rfl, ?_, ?_, ?_⟩
  · have hval : validateUpdateRequest info = .ok () := by
      unfold validateUpdateRequest
      rw [if_neg h1, if_neg (by simp [h2]), h4]
      exact validateSigner_kid s kid h5 h6
    unfold NewUpdateRequest
    rw [hval, bindOk]
    simp only [h2, h3, h4]
    rw [getEncodedMultihash_18, bindOk]
  · exact ⟨_, _, rfl⟩
  · exact IsValidHash_roundtrip _ (strBytes_isBytes _)

/-- Witness for C1 at the S1 scenario inputs: did suffix "whatever", the JSON
patch replacing /name with "Jane", multihash code 18 and a signer whose
protected headers carry kid "key-1". -/
theorem claim_C1_witness :
    ∃ deltaBytes deltaHash jws,
      deltaBytes = getDeltaBytes s1Info.updateCommitment (.cons s1Patch .nil) ∧
      deltaHash = EncodeToString (18 :: 32 :: sha256 deltaBytes) ∧
      getEncodedMultihash 18 deltaBytes = .ok deltaHash ∧
      jws = SignModel (UpdateSignedDataModel.toJson ⟨s1Info.updateKey, deltaHash⟩) s1Signer ∧
      NewUpdateRequest s1Info
        = .ok (marshalCanonicalJson (UpdateRequest.toJson
            ⟨OperationTypeUpdate, s1Info.didSuffix, jws, EncodeToString deltaBytes⟩)) ∧
      (∃ prot sig, jws = prot ++ "." ++
          EncodeToString (strBytes (marshalCanonicalJson
            (UpdateSignedDataModel.toJson ⟨s1Info.updateKey, deltaHash⟩)))
          ++ "." ++ sig) ∧
      IsValidHash (EncodeToString deltaBytes) deltaHash = .ok () :=
  claim_C1 s1Info s1Patch s1Signer "key-1" (by decide) rfl rfl rfl (by decide) (by decide)

theorem keepFirst_nodup (ops : List AnchoredOperation) : ∀ seen,
    ((keepFirst seen ops).map (fun o => o.uniqueSuffix)).Nodup ∧
    ∀ op ∈ keepFirst seen ops, op.uniqueSuffix ∉ seen := by
  induction ops with
  | nil => intro seen; simp [keepFirst]
  | cons op rest ih =>
    intro seen
    by_cases h : op.uniqueSuffix ∈ seen
    · simp only [keepFirst, if_pos h]
      exact ih seen
    · simp only [keepFirst, if_neg h]
      obtain ⟨hnd, hmem⟩ := ih (op.uniqueSuffix :: seen)
      refine ⟨?_, ?_⟩
      · simp only [List.map_cons, List.nodup_cons]
        refine ⟨?_, hnd⟩
        intro hin
        rw [List.mem_map] at hin
        obtain ⟨op2, hop2, heq⟩ := hin
        exact hmem op2 hop2 (by rw [heq]; exact List.mem_cons_self _ _)
      · intro op2 hop2
        rw [List.mem_cons] at hop2
        rcases hop2 with rfl | hop2
        · exact h
        · intro hseen
          exact hmem op2 hop2 (List.mem_cons_of_mem _ hseen)

theorem keepFirst_covers (ops : List AnchoredOperation) : ∀ seen, ∀ op ∈ ops,
    op.uniqueSuffix ∉ seen →
    op.uniqueSuffix ∈ (keepFirst seen ops).map (fun o => o.uniqueSuffix) := by
  induction ops with
  | nil => intro seen op hop; simp at hop
  | cons op2 rest ih =>
    intro seen op hop hnot
    rw [List.mem_cons] at hop
    rcases hop with rfl | hop
    · by_cases h : op.uniqueSuffix ∈ seen
      · exact absurd h hnot
      · simp only [keepFirst, if_neg h, List.map_cons]
        exact List.mem_cons_self _ _
    · by_cases h : op2.uniqueSuffix ∈ seen
      · simp only [keepFirst, if_pos h]
        exact ih seen op hop hnot
      · simp only [keepFirst, if_neg h, List.map_cons]
        by_cases he : op.uniqueSuffix = op2.uniqueSuffix
        · rw [he]
          exact List.mem_cons_self _ _
        · refine List.mem_cons_of_mem _ (ih _ op hop ?_)
          intro hin
          rw [List.mem_cons] at hin
          rcases hin with hin | hin
          · exact he hin
          · exact hnot hin

theorem keepFirst_find (ops : List AnchoredOperation) : ∀ seen s, s ∉ seen →
    findBySuffix s (keepFirst seen ops) = findBySuffix s ops := by
  induction ops with
  | nil => intro seen s _; rfl
  | cons op rest ih =>
    intro seen s hs
    by_cases h : op.uniqueSuffix ∈ seen
    · have hne : op.uniqueSuffix ≠ s := fun he => hs (he ▸ h)
      simp only [keepFirst, if_pos h, findBySuffix, if_neg hne]
      exact ih seen s hs
    · by_cases he : op.uniqueSuffix = s
      · simp only [keepFirst, if_neg h, findBySuffix, if_pos he]
      · simp only [keepFirst, if_neg h, findBySuffix, if_neg he]
        refine ih _ s ?_
        intro hin
        rw [List.mem_cons] at hin
        rcases hin with hin | hin
        · exact he hin.symm
        · exact hs hin

theorem find_self_of_nodup (l : List AnchoredOperation)
    (hnd : (l.map (fun o => o.uniqueSuffix)).Nodup) (i : Nat) (h : i < l.length) :
    findBySuffix ((l.get ⟨i, h⟩).uniqueSuffix) l = some (l.get ⟨i, h⟩) := by
  induction l generalizing i with
  | nil => simp at h
  | cons op rest ih =>
    cases i with
    | zero =>
      show findBySuffix op.uniqueSuffix (op :: rest) = some op
      simp [findBySuffix]
    | succ i =>
      simp only [List.map_cons, List.nodup_cons] at hnd
      have hi : i < rest.length := by simpa using h
      have hget : (op :: rest).get ⟨i + 1, h⟩ = rest.get ⟨i, hi⟩ := rfl
      rw [hget]
      have hne : op.uniqueSuffix ≠ (rest.get ⟨i, hi⟩).uniqueSuffix := by
        intro hb
        exact hnd.1 (by
          rw [hb]
          exact List.mem_map.mpr ⟨rest.get ⟨i, hi⟩, rest.get_mem _ _, rfl⟩)
      simp only [findBySuffix, if_neg hne]
      exact ih hnd.2 i hi

/-- C2: processing a transaction batch deduplicates by unique suffix: the
store's single `Put` receives at most one operation per suffix — the first in
batch order, stamped with the ledger position and a running index — later
occurrences are dropped (every suffix of the batch is still represented) and
processing succeeds. -/
theorem claim_C2 (forNamespace : String → Except String OperationStore)
    (store : OperationStore) (txnOps : List AnchoredOperation) (txn : SidetreeTxn)
    (hns : forNamespace txn.txnNamespace = .ok store)
    (hput : ∀ ops, store.put ops = .ok ()) :
    ∃ puts, processTxnOperations forNamespace txnOps txn = .ok puts ∧
      (puts.map (fun o => o.uniqueSuffix)).Nodup ∧
      (∀ op ∈ txnOps, op.uniqueSuffix ∈ puts.map (fun o => o.uniqueSuffix)) ∧
      ∀ i (h : i < puts.length), ∃ orig,
        findBySuffix ((puts.get ⟨i, h⟩).uniqueSuffix) txnOps = some orig ∧
        puts.get ⟨i, h⟩ = updateAnchoredOperation orig i txn := by
  have hsuffix : ∀ (kept : List AnchoredOperation),
      (kept.enum.map (fun p => updateAnchoredOperation p.2 p.1 txn)).map (fun o => o.uniqueSuffix)
        = kept.map (fun o => o.uniqueSuffix) := by
    intro kept
    rw [List.map_map]
    have : ((fun o => o.uniqueSuffix) ∘ fun p : Nat × AnchoredOperation =>
        updateAnchoredOperation p.2 p.1 txn) = (fun o => o.uniqueSuffix) ∘ Prod.snd := rfl
    rw [this, ← List.map_map, List.enum_map_snd]
  refine ⟨(keepFirst [] txnOps).enum.map (fun p => updateAnchoredOperation p.2 p.1 txn), ?_, ?_, ?_, ?_⟩
  · unfold processTxnOperations
    rw [hns, bindOk, hput]
  · rw [hsuffix]
    exact (keepFirst_nodup txnOps []).1
  · intro op hop
    rw [hsuffix]
    exact keepFirst_covers txnOps [] op hop (by simp)
  · intro i h
    have hlen : (keepFirst [] txnOps).length = ((keepFirst [] txnOps).enum.map
        (fun p => updateAnchoredOperation p.2 p.1 txn)).length := by
      simp [List.length_map, List.enum_length]
    have hi : i < (keepFirst [] txnOps).length := by rw [hlen]; exact h
    have hget : ((keepFirst [] txnOps).enum.map (fun p => updateAnchoredOperation p.2 p.1 txn)).get ⟨i, h⟩
        = updateAnchoredOperation ((keepFirst [] txnOps).get ⟨i, hi⟩) i txn := by
      rw [List.get_map]
      congr 1 <;> simp [List.getElem_enum]
    refine ⟨(keepFirst [] txnOps).get ⟨i, hi⟩, ?_, ?_⟩
    · have hfst : ((keepFirst [] txnOps).get ⟨i, hi⟩).uniqueSuffix
          = (((keepFirst [] txnOps).enum.map (fun p => updateAnchoredOperation p.2 p.1 txn)).get ⟨i, h⟩).uniqueSuffix := by
        rw [hget]
        rfl
      rw [← hfst, ← keepFirst_find txnOps [] _ (by simp)]
      exact find_self_of_nodup _ (keepFirst_nodup txnOps []).1 i hi
    · exact hget

/-- Witness for C2: a batch with two operations of the same suffix "abc";
the put list holds exactly the first, stamped with the transaction. -/
theorem claim_C2_witness :
    ∃ puts, processTxnOperations (fun _ => .ok s4Store) [s4Op, s4Op] s4Txn = .ok puts ∧
      (puts.map (fun o => o.uniqueSuffix)).Nodup ∧
      (∀ op ∈ [s4Op, s4Op], op.uniqueSuffix ∈ puts.map (fun o => o.uniqueSuffix)) ∧
      ∀ i (h : i < puts.length), ∃ orig,
        findBySuffix ((puts.get ⟨i, h⟩).uniqueSuffix) [s4Op, s4Op] = some orig ∧
        puts.get ⟨i, h⟩ = updateAnchoredOperation orig i s4Txn :=
  claim_C2 (fun _ => .ok s4Store) s4Store [s4Op, s4Op] s4Txn rfl (fun _ => rfl)

/-- C4: when fetching a transaction's operations fails, the whole transaction
is rejected atomically — `Process` returns a single aggregate error containing
"failed to retrieve operations for anchor string", no operation list is ever
produced for the store, and the observer loop still processes every later
ledger message. -/
theorem claim_C4 (provider : SidetreeTxn → Except String (List AnchoredOperation))
    (forNamespace : String → Except String OperationStore) (txn : SidetreeTxn) (e : String)
    (h : provider txn = .error e) :
    ∃ msg, Process provider forNamespace txn = .error msg ∧
      strContains msg "failed to retrieve operations for anchor string" ∧
      (∀ puts, Process provider forNamespace txn ≠ .ok puts) ∧
      ∀ rest, observerRun provider forNamespace (txn :: rest)
        = .error msg :: observerRun provider forNamespace rest := by
  have hp : Process provider forNamespace txn
      = .error ("failed to retrieve operations for anchor string"
          ++ (" [" ++ (txn.anchorString ++ ("]: " ++ e)))) := by
    unfold Process
    rw [h]
  refine ⟨_, hp, ⟨"", " [" ++ (txn.anchorString ++ ("]: " ++ e)), rfl⟩, ?_, ?_⟩
  · intro puts heq
    rw [hp] at heq
    exact Except.noConfusion heq
  · intro rest
    unfold observerRun
    rw [List.map_cons, hp]

/-- Witness for C4: the provider fails with "read error" as in scenario S5;
the next message still reaches its store. -/
theorem claim_C4_witness :
    ∃ msg, Process (fun _ => .error "read error") (fun _ => .ok s4Store) s4Txn = .error msg ∧
      strContains msg "failed to retrieve operations for anchor string" ∧
      (∀ puts, Process (fun _ => .error "read error") (fun _ => .ok s4Store) s4Txn ≠ .ok puts) ∧
      ∀ rest, observerRun (fun _ => .error "read error") (fun _ => .ok s4Store) (s4Txn :: rest)
        = .error msg :: observerRun (fun _ => .error "read error") (fun _ => .ok s4Store) rest :=
  claim_C4 (fun _ => .error "read error") (fun _ => .ok s4Store) s4Txn "read error" rfl

set_option maxRecDepth 100000 in
/-- Counterexample for C8: a payload of type "recover" is not dispatched to a
recover decoder — `handlePayload` produces no operation and fails with
"operation type [] not implemented" (likewise for "deactivate"; the claim's
four-type dispatch and `UnknownOperationType` error do not hold on this code). -/
theorem claim_C8_counterexample :
    handlePayload "did:sidetree" c8RecoverOp = .error "operation type [] not implemented" := by
  decide

/-- C8 (amended): `handlePayload` peeks the type field and dispatches the
three operation types create, update and delete to their per-type decoders,
producing an operation of that type; a payload whose type is any other value
(recover and deactivate included) produces no operation and fails with an
"operation type [] not implemented" error. -/
theorem claim_C8 (ns : String) (op : DocOperation) (bytes : List Nat) (j : Json) (t : String)
    (hdec : DecodeString op.encodedPayload = .ok bytes)
    (hparse : parseJson bytes = .ok j)
    (htype : jsonStrField j "type" = .ok t) :
    (t ≠ OperationTypeCreate → t ≠ OperationTypeUpdate → t ≠ OperationTypeDelete →
       handlePayload ns op = .error "operation type [] not implemented") ∧
    (t = OperationTypeUpdate → ∀ suffix patch otp,
       getUpdatePayloadSchema bytes = .ok (suffix, patch, otp) →
       handlePayload ns op = .ok { op with
         type := OperationTypeUpdate,
         uniqueSuffix := suffix,
         patch := patch,
         nextUpdateOtpHash := otp,
         id := ns ++ ":" ++ suffix }) ∧
    (t = OperationTypeCreate → ∀ us document nuoh nroh,
       GetOperationHash { op with type := OperationTypeCreate } = .ok us →
       getCreatePayloadSchema bytes = .ok (document, nuoh, nroh) →
       handlePayload ns op = .ok { op with
         type := OperationTypeCreate,
         uniqueSuffix := us,
         document := document,
         nextUpdateOtpHash := nuoh,
         nextRecoveryOtpHash := nroh,
         id := ns ++ ":" ++ us }) ∧
    (t = OperationTypeDelete → ∀ suffix rotp,
       getDeletePayloadSchema bytes = .ok (suffix, rotp) →
       handlePayload ns op = .ok { op with
         type := OperationTypeDelete,
         uniqueSuffix := suffix,
         recoveryOtp := rotp,
         id := ns ++ ":" ++ suffix }) := by
  refine ⟨?_, ?_, ?_, ?_⟩
  · intro h1 h2 h3
    have hgt : getOperationType t = "" := by
      unfold getOperationType
      rw [if_neg h1, if_neg h2, if_neg h3]
    have hgd : getDecodedPayload op.encodedPayload = .ok (bytes, "") := by
      unfold getDecodedPayload
      rw [hdec, bindOk, hparse, bindOk, htype, bindOk, hgt]
    unfold handlePayload
    rw [hgd, bindOk]
    rfl
  · intro ht suffix patch otp hupd
    subst ht
    have hgd : getDecodedPayload op.encodedPayload = .ok (bytes, OperationTypeUpdate) := by
      unfold getDecodedPayload
      rw [hdec, bindOk, hparse, bindOk, htype, bindOk]
      rfl
    unfold handlePayload
    rw [hgd, bindOk]
    show dispatchPayload ns { op with type := OperationTypeUpdate } bytes = _
    unfold dispatchPayload
    rw [hupd]
    rfl
  · intro ht us document nuoh nroh hhash hcreate
    subst ht
    have hgd : getDecodedPayload op.encodedPayload = .ok (bytes, OperationTypeCreate) := by
      unfold getDecodedPayload
      rw [hdec, bindOk, hparse, bindOk, htype, bindOk]
      rfl
    unfold handlePayload
    rw [hgd, bindOk]
    show dispatchPayload ns { op with type := OperationTypeCreate } bytes = _
    unfold dispatchPayload
    simp only [hhash, hcreate, bindOk]
    rfl
  · intro ht suffix rotp hdel
    subst ht
    have hgd : getDecodedPayload op.encodedPayload = .ok (bytes, OperationTypeDelete) := by
      unfold getDecodedPayload
      rw [hdec, bindOk, hparse, bindOk, htype, bindOk]
      rfl
    unfold handlePayload
    rw [hgd, bindOk]
    show dispatchPayload ns { op with type := OperationTypeDelete } bytes = _
    unfold dispatchPayload
    rw [hdel]
    rfl

set_option maxRecDepth 100000 in
/-- Witness for C8 (amended): a concrete update payload for suffix "abc" is
dispatched to the update decoder, and the recover payload of the
counterexample falls to the not-implemented error. -/
theorem claim_C8_witness :
    handlePayload "did:sidetree" c8UpdateOp
      = .ok { c8UpdateOp with
          type := OperationTypeUpdate,
          uniqueSuffix := "abc",
          patch := .null,
          nextUpdateOtpHash := "",
          id := "did:sidetree:abc" } ∧
    handlePayload "did:sidetree" c8RecoverOp = .error "operation type [] not implemented" :=
  ⟨((claim_C8 "did:sidetree" c8UpdateOp
      (strBytes "\x7b\"type\":\"update\",\"didUniqueSuffix\":\"abc\"\x7d")
      (.obj (.cons "type" (.str "update") (.cons "didUniqueSuffix" (.str "abc") .nil)))
      "update" (by decide) (by decide) (by decide)).2.1 rfl "abc" .null "" (by decide)),
   ((claim_C8 "did:sidetree" c8RecoverOp (strBytes "\x7b\"type\":\"recover\"\x7d")
      (.obj (.cons "type" (.str "recover") .nil))
      "recover" (by decide) (by decide) (by decide)).1 (by decide) (by decide) (by decide))⟩

/-- C9: `IsValidPayload` rejects a payload without a non-empty did_suffix
with "missing unique suffix"; with a suffix present, a store lookup error is
propagated unchanged (the mock's empty lookup yields an error containing
"not found"), and the call succeeds exactly when the store holds at least one
anchored operation for the suffix. -/
theorem claim_C9 (store : MockOperationStore) (payload : List Nat) (fields : JsonObj)
    (hparse : parseJson payload = .ok (.obj fields)) :
    (jsonStrValueD (.obj fields) "did_suffix" = "" →
       IsValidPayload store payload = .error "missing unique suffix") ∧
    (∀ suffix, jsonStrValueD (.obj fields) "did_suffix" = suffix → suffix ≠ "" →
       (∀ e, store.err = some e → IsValidPayload store payload = .error e) ∧
       (store.err = none →
          (store.ops.filter (fun op => op.uniqueSuffix == suffix)).isEmpty = true →
          ∃ msg, IsValidPayload store payload = .error msg ∧ strContains msg "not found") ∧
       (IsValidPayload store payload = .ok () ↔
          store.err = none ∧ ∃ op ∈ store.ops, op.uniqueSuffix = suffix)) := by
  have hbase : IsValidPayload store payload
      = (if jsonStrValueD (.obj fields) "did_suffix" = "" then .error "missing unique suffix"
         else do
           let _ ← store.get (jsonStrValueD (.obj fields) "did_suffix")
           Except.ok ()) := by
    unfold IsValidPayload
    rw [hparse, bindOk]
  refine ⟨?_, ?_⟩
  · intro h
    rw [hbase, if_pos h]
  · intro suffix hds hne
    subst hds
    refine ⟨?_, ?_, ?_⟩
    · intro e he
      have hg : store.get (jsonStrValueD (.obj fields) "did_suffix") = .error e := by
        unfold MockOperationStore.get
        rw [he]
      rw [hbase, if_neg hne, hg, bindErr]
    · intro hnone hempty
      have hg : store.get (jsonStrValueD (.obj fields) "did_suffix")
          = .error "uniqueSuffix not found in the store" := by
        unfold MockOperationStore.get
        rw [hnone]
        exact if_pos hempty
      refine ⟨"uniqueSuffix not found in the store", ?_, "uniqueSuffix ", " in the store", by decide⟩
      rw [hbase, if_neg hne, hg, bindErr]
    · cases herr : store.err with
      | some e =>
          have hg : store.get (jsonStrValueD (.obj fields) "did_suffix") = .error e := by
            unfold MockOperationStore.get
            rw [herr]
          rw [hbase, if_neg hne, hg, bindErr]
          constructor
          · intro h
            exact absurd h (fun hh => Except.noConfusion hh)
          · intro ⟨hn, _⟩
            exact Option.noConfusion hn
      | none =>
          by_cases hemp : ((store.ops.filter
              (fun op => op.uniqueSuffix == jsonStrValueD (.obj fields) "did_suffix")).isEmpty) = true
          · have hg : store.get (jsonStrValueD (.obj fields) "did_suffix")
                = .error "uniqueSuffix not found in the store" := by
              unfold MockOperationStore.get
              rw [herr]
              exact if_pos hemp
            rw [hbase, if_neg hne, hg, bindErr]
            constructor
            · intro h
              exact absurd h (fun hh => Except.noConfusion hh)
            · intro ⟨_, op, hop, hsuf⟩
              have hmem : op ∈ store.ops.filter
                  (fun o => o.uniqueSuffix == jsonStrValueD (.obj fields) "did_suffix") :=
                List.mem_filter.mpr ⟨hop, beq_iff_eq.mpr hsuf⟩
              cases hfil : store.ops.filter
                  (fun o => o.uniqueSuffix == jsonStrValueD (.obj fields) "did_suffix") with
              | nil =>
                  rw [hfil] at hmem
                  exact absurd hmem (List.not_mem_nil op)
              | cons a as =>
                  rw [hfil] at hemp
                  exact Bool.noConfusion hemp
          · have hg : store.get (jsonStrValueD (.obj fields) "did_suffix")
                = .ok (store.ops.filter
                    (fun op => op.uniqueSuffix == jsonStrValueD (.obj fields) "did_suffix")) := by
              unfold MockOperationStore.get
              rw [herr]
              exact if_neg hemp
            rw [hbase, if_neg hne, hg, bindOk]
            constructor
            · intro _
              refine ⟨rfl, ?_⟩
              cases hfil : store.ops.filter
                  (fun o => o.uniqueSuffix == jsonStrValueD (.obj fields) "did_suffix") with
              | nil =>
                  rw [hfil] at hemp
                  exact absurd rfl hemp
              | cons a as =>
                  have hmem : a ∈ store.ops.filter
                      (fun o => o.uniqueSuffix == jsonStrValueD (.obj fields) "did_suffix") := by
                    rw [hfil]
                    exact List.mem_cons_self _ _
                  have := List.mem_filter.mp hmem
                  exact ⟨a, this.1, beq_iff_eq.mp this.2⟩
            · intro _
              rfl

/-- Witness for C9: concrete payloads and stores of the docvalidator tests —
valid update against an empty store, a populated store, an invalid update,
and a store with an injected error. -/
theorem claim_C9_witness :
    (∃ msg, IsValidPayload ⟨none, []⟩ (strBytes "\x7b \"did_suffix\": \"abc\" \x7d") = .error msg ∧
       strContains msg "not found") ∧
    IsValidPayload ⟨none, [s4Op]⟩ (strBytes "\x7b \"did_suffix\": \"abc\" \x7d") = .ok () ∧
    IsValidPayload ⟨none, []⟩ (strBytes "\x7b \"patch\": \"\" \x7d") = .error "missing unique suffix" ∧
    IsValidPayload ⟨some "store error", [s4Op]⟩ (strBytes "\x7b \"did_suffix\": \"abc\" \x7d")
      = .error "store error" :=
  ⟨((claim_C9 ⟨none, []⟩ _ (.cons "did_suffix" (.str "abc") .nil) (by decide)).2
      "abc" rfl (by decide)).2.1 rfl (by decide),
   ((claim_C9 ⟨none, [s4Op]⟩ _ (.cons "did_suffix" (.str "abc") .nil) (by decide)).2
      "abc" rfl (by decide)).2.2.mpr ⟨rfl, s4Op, by simp, by decide⟩,
   (claim_C9 ⟨none, []⟩ _ (.cons "patch" (.str "") .nil) (by decide)).1 (by decide),
   ((claim_C9 ⟨some "store error", [s4Op]⟩ _ (.cons "did_suffix" (.str "abc") .nil)
      (by decide)).2 "abc" rfl (by decide)).1 "store error" rfl⟩

end Sidetree
